import Mathlib

/-!
Exam grading (`q2.cpp`) and vehicle rental pricing (`q1.cpp`): a shallow embedding of the
two C++ programs.

* A C++ member function that may throw is a function from the object state to a pair
  `(outcome, state after the call)`, where the outcome is `Except Exn α`.  The state component
  is the state of the object at the point where the function returned or threw, so that what
  a failing call leaves behind is visible.
* A constructor that may throw returns `Except Exn T`: when it throws there is no object.
* `char` is `Char` (only equality of characters is used), the sentinel `'\0'` is `NUL`.
* The fixed-size arrays `T a[50]` are lists; their extent is part of the class invariant
  `MultipleChoiceExam.Inv`.  Reads and writes are `List.getD` and `List.set`.  An index of
  type `int` is converted with `Int.toNat`; under the class invariant every index that the
  member functions use is within `0 .. 49`, which is where C++ gives the access a meaning.
* `int` in `q2.cpp` is `Int`: under the class invariant the only arithmetic is a counter
  between `-50` and `50`.  In `q1.cpp` the product `days * rate` can leave the 32-bit range,
  so it is wrapped explicitly with `wrapInt32`.
-/

namespace Q2

/-- The exception classes thrown in `q2.cpp`. -/
inductive Exn where
  | InvalidExamDurationException
  | GradingErrorException
  | overflow_error
  | out_of_range
  | runtime_error
  deriving DecidableEq

/-- The character literal `'\0'`, the initial value of every answer slot. -/
def NUL : Char := Char.ofNat 0

/-- Data members of `class Exam`. -/
structure Exam where
  examID : Int
  subject : String
  duration : Int
  deriving DecidableEq

/-- Constructor `Exam::Exam(int id, std::string subj, int dur)`. -/
def Exam.new (id : Int) (subj : String) (dur : Int) : Except Exn Exam :=
  if dur ≤ 0 then
    Except.error Exn.InvalidExamDurationException
  else
    Except.ok ⟨id, subj, dur⟩

/-- Data members of `class MultipleChoiceExam : public Exam`. -/
structure MultipleChoiceExam extends Exam where
  questions : List String
  options : List (List String)
  correctAnswers : List Char
  studentAnswers : List Char
  totalQuestions : Int
  deriving DecidableEq

namespace MultipleChoiceExam

/-- Class invariant: the four arrays have their declared extents and the question counter
lies in `0 .. 50`. -/
def Inv (s : MultipleChoiceExam) : Prop :=
  s.questions.length = 50 ∧
  s.options.length = 50 ∧
  (∀ row ∈ s.options, row.length = 4) ∧
  s.correctAnswers.length = 50 ∧
  s.studentAnswers.length = 50 ∧
  0 ≤ s.totalQuestions ∧ s.totalQuestions ≤ 50

instance (s : MultipleChoiceExam) : Decidable s.Inv := by
  unfold Inv
  infer_instance

/-- Body of the constructor loop: `correctAnswers[i] = '\0'; studentAnswers[i] = '\0';`. -/
def clearSlot (s : MultipleChoiceExam) (i : Nat) : MultipleChoiceExam :=
  let s1 := { s with correctAnswers := s.correctAnswers.set i NUL }
  { s1 with studentAnswers := s1.studentAnswers.set i NUL }

/-- Constructor `MultipleChoiceExam(int id, std::string subj, int dur)`.

The base constructor runs first and may throw.  The `std::string` arrays are
default-constructed (empty strings).  The two `char` arrays are not initialised by the
member initialiser list: their contents before the loop are indeterminate and are given
here by `rawCorrect` and `rawStudent`. -/
def new (rawCorrect rawStudent : Nat → Char) (id : Int) (subj : String) (dur : Int) :
    Except Exn MultipleChoiceExam :=
  match Exam.new id subj dur with
  | Except.error e => Except.error e
  | Except.ok base =>
    let s0 : MultipleChoiceExam :=
      { toExam := base
        questions := List.replicate 50 ""
        options := List.replicate 50 (List.replicate 4 "")
        correctAnswers := (List.range 50).map rawCorrect
        studentAnswers := (List.range 50).map rawStudent
        totalQuestions := 0 }
    Except.ok ((List.range 50).foldl clearSlot s0)

/-- Body of the loop in `addQuestion`: `options[totalQuestions][i] = opts[i];`. -/
def copyOption (opts : List String) (s : MultipleChoiceExam) (i : Nat) : MultipleChoiceExam :=
  let row := (s.options.getD s.totalQuestions.toNat []).set i (opts.getD i "")
  { s with options := s.options.set s.totalQuestions.toNat row }

/-- Member function `void addQuestion(std::string qText, std::string opts[4], char correct)`. -/
def addQuestion (s : MultipleChoiceExam) (qText : String) (opts : List String)
    (correct : Char) : Except Exn Unit × MultipleChoiceExam :=
  if s.totalQuestions ≥ 50 then
    (Except.error Exn.overflow_error, s)
  else
    let s1 := { s with questions := s.questions.set s.totalQuestions.toNat qText }
    let s2 := (List.range 4).foldl (copyOption opts) s1
    let s3 := { s2 with correctAnswers := s2.correctAnswers.set s2.totalQuestions.toNat correct }
    (Except.ok (), { s3 with totalQuestions := s3.totalQuestions + 1 })

/-- Member function `void submitAnswer(int index, char answer)`. -/
def submitAnswer (s : MultipleChoiceExam) (index : Int) (answer : Char) :
    Except Exn Unit × MultipleChoiceExam :=
  if index ≥ s.totalQuestions ∨ index < 0 then
    (Except.error Exn.out_of_range, s)
  else
    (Except.ok (), { s with studentAnswers := s.studentAnswers.set index.toNat answer })

/-- Body of the loop in `gradeExam`, as a function of the running score and the index. -/
def gradeStep (s : MultipleChoiceExam) (score : Int) (i : Nat) : Int :=
  if s.studentAnswers.getD i NUL = s.correctAnswers.getD i NUL then
    score + 1
  else if s.studentAnswers.getD i NUL ≠ NUL then
    score - 1
  else
    score

/-- Member function `int gradeExam() override`: the loop
`for (int i = 0; i < totalQuestions; ++i)` is a left fold over `0, 1, .., totalQuestions - 1`
starting from `score = 0`. -/
def gradeExam (s : MultipleChoiceExam) : Except Exn Int × MultipleChoiceExam :=
  if s.totalQuestions ≤ 0 then
    (Except.error Exn.GradingErrorException, s)
  else
    (Except.ok ((List.range s.totalQuestions.toNat).foldl (gradeStep s) 0), s)

end MultipleChoiceExam

/-- Data members of `class EssayExam : public Exam`. -/
structure EssayExam extends Exam where
  topic : String
  score : Int
  deriving DecidableEq

namespace EssayExam

/-- Constructor `EssayExam(int id, std::string subj, int dur, std::string top)`. -/
def new (id : Int) (subj : String) (dur : Int) (top : String) : Except Exn EssayExam :=
  match Exam.new id subj dur with
  | Except.error e => Except.error e
  | Except.ok base => Except.ok { toExam := base, topic := top, score := -1 }

/-- Member function `void assignScore(int s)`. -/
def assignScore (e : EssayExam) (s : Int) : Except Exn Unit × EssayExam :=
  if s < 0 ∨ s > 100 then
    (Except.error Exn.GradingErrorException, e)
  else
    (Except.ok (), { e with score := s })

/-- Member function `int gradeExam() override`. -/
def gradeExam (e : EssayExam) : Except Exn Int × EssayExam :=
  if e.score = -1 then
    (Except.error Exn.runtime_error, e)
  else
    (Except.ok e.score, e)

end EssayExam

end Q2

namespace Q1

/-- Result of a 32-bit signed operation whose exact value is `x`: reduction modulo `2^32`
into `-2^31 .. 2^31 - 1`. -/
def wrapInt32 (x : Int) : Int := (x + 2147483648) % 4294967296 - 2147483648

/-- Data members of `class Vehicle`. -/
structure Vehicle where
  make : String
  model : String
  year : Int

/-- Data members of `class Car : public Vehicle`. -/
structure Car extends Vehicle where
  numDoors : Int

/-- Member function `int Car::calculateRentalCost(int days)`. -/
def Car.calculateRentalCost (_c : Car) (days : Int) : Int :=
  wrapInt32 (days * 2000)

/-- Data members of `class SUV : public Vehicle`. -/
structure SUV extends Vehicle where
  fourWheelDrive : Bool

/-- Member function `int SUV::calculateRentalCost(int days)`. -/
def SUV.calculateRentalCost (v : SUV) (days : Int) : Int :=
  wrapInt32 (days * (if v.fourWheelDrive then 3000 else 2000))

/-- Data members of `class Truck : public Vehicle`; the `double` capacity is only stored and
printed, it is kept as a rational number. -/
structure Truck extends Vehicle where
  cargoCapacity : ℚ

/-- Member function `int Truck::calculateRentalCost(int days)`. -/
def Truck.calculateRentalCost (_t : Truck) (days : Int) : Int :=
  wrapInt32 (days * 2500)

/-- The `Car` object of the driver. -/
def myCar : Car := ⟨⟨"Toyota", "Corolla", 2022⟩, 4⟩

/-- The `SUV` object of the driver. -/
def mySUV : SUV := ⟨⟨"Ford", "Explorer", 2021⟩, true⟩

/-- The `Truck` object of the driver. -/
def myTruck : Truck := ⟨⟨"Volvo", "FH16", 2020⟩, 10.5⟩

end Q1

namespace Q2

open MultipleChoiceExam

/-- The score as the specification words it: the number of indices below the question count
whose submitted answer equals the correct answer, minus the number of indices below the
question count whose submitted answer differs from the correct answer and is not `'\0'`. -/
def scoreSpec (s : MultipleChoiceExam) : Int :=
  (((Finset.range s.totalQuestions.toNat).filter
      (fun i => s.studentAnswers.getD i NUL = s.correctAnswers.getD i NUL)).card : Int) -
  (((Finset.range s.totalQuestions.toNat).filter
      (fun i => s.studentAnswers.getD i NUL ≠ s.correctAnswers.getD i NUL ∧
        s.studentAnswers.getD i NUL ≠ NUL)).card : Int)

/-- The object `mcExam` of the driver right after its construction. -/
def driverFresh : MultipleChoiceExam :=
  (List.range 50).foldl clearSlot
    { toExam := ⟨101, "Math", 60⟩
      questions := List.replicate 50 ""
      options := List.replicate 50 (List.replicate 4 "")
      correctAnswers := List.replicate 50 'x'
      studentAnswers := List.replicate 50 'y'
      totalQuestions := 0 }

/-- The object `mcExam` of the driver when `gradeExam` is called: two questions with keys
`'C'`, `'A'` and submitted answers `'C'`, `'B'`. -/
def driverExam : MultipleChoiceExam :=
  let s1 := (driverFresh.addQuestion "What is 2 + 2?" ["2", "3", "4", "5"] 'C').2
  let s2 := (s1.addQuestion "What color is the sky?" ["Blue", "Red", "Green", "Yellow"] 'A').2
  let s3 := (s2.submitAnswer 0 'C').2
  (s3.submitAnswer 1 'B').2

/-- The object `essay` of the driver right after its construction. -/
def driverEssay : EssayExam :=
  { toExam := ⟨102, "English", 45⟩, topic := "Discuss the impact of social media.", score := -1 }

/-- The score counted over the questions other than question `i`. -/
def scoreWithout (s : MultipleChoiceExam) (i : Nat) : Int :=
  (((Finset.range s.totalQuestions.toNat).filter
      (fun j => j ≠ i ∧ s.studentAnswers.getD j NUL = s.correctAnswers.getD j NUL)).card : Int) -
  (((Finset.range s.totalQuestions.toNat).filter
      (fun j => j ≠ i ∧ s.studentAnswers.getD j NUL ≠ s.correctAnswers.getD j NUL ∧
        s.studentAnswers.getD j NUL ≠ NUL)).card : Int)

/-- A freshly constructed exam to which one question with the correct letter `'\0'` was added
and for which no answer was submitted. -/
def nulKeyExam : MultipleChoiceExam :=
  (driverFresh.addQuestion "Pick one" ["w", "x", "y", "z"] NUL).2

/-- Consecutive `addQuestion` calls written as a sequence of statements: the first call that
throws ends the sequence. -/
def addQuestions (s : MultipleChoiceExam) :
    List (String × List String × Char) → Except Exn Unit × MultipleChoiceExam
  | [] => (Except.ok (), s)
  | q :: qs =>
    match s.addQuestion q.1 q.2.1 q.2.2 with
    | (Except.ok _, s1) => addQuestions s1 qs
    | (Except.error e, s1) => (Except.error e, s1)

/-- A call of one of the three state-dependent member functions of `MultipleChoiceExam`. -/
inductive Call where
  | addQuestion (qText : String) (opts : List String) (correct : Char)
  | submitAnswer (index : Int) (answer : Char)
  | gradeExam

/-- The state of the object after a call, whether the call returned or threw. -/
def Call.exec (s : MultipleChoiceExam) : Call → MultipleChoiceExam
  | Call.addQuestion qText opts correct => (s.addQuestion qText opts correct).2
  | Call.submitAnswer index answer => (s.submitAnswer index answer).2
  | Call.gradeExam => s.gradeExam.2

/-- The state of the object after a sequence of calls. -/
def runCalls (s : MultipleChoiceExam) (cs : List Call) : MultipleChoiceExam :=
  cs.foldl Call.exec s

/-- What question `i` adds to the score in the loop of `gradeExam`. -/
def contribution (s : MultipleChoiceExam) (i : Nat) : Int :=
  gradeStep s 0 i

/-- The driver's exam right after construction followed by fifty `addQuestion` calls. -/
def fullExam : MultipleChoiceExam :=
  (addQuestions driverFresh (List.replicate 50 ("Q", ["a", "b", "c", "d"], 'D'))).2

/-- Every answer slot at or beyond the question count holds the unset sentinel. -/
def UnansweredBeyondCount (s : MultipleChoiceExam) : Prop :=
  ∀ i : Nat, s.totalQuestions ≤ (i : Int) → i < 50 → s.studentAnswers[i]? = some NUL

/-- Every array access that the member functions make in state `s` is within the array:
the writes of `addQuestion` past its guard, the write of `submitAnswer` past its guard, and
the reads of the loop in `gradeExam`. -/
def IndicesInBounds (s : MultipleChoiceExam) : Prop :=
  (¬ s.totalQuestions ≥ 50 →
    0 ≤ s.totalQuestions ∧
    s.totalQuestions.toNat < s.questions.length ∧
    s.totalQuestions.toNat < s.options.length ∧
    (∀ i : Nat, i < 4 → i < (s.options.getD s.totalQuestions.toNat []).length) ∧
    s.totalQuestions.toNat < s.correctAnswers.length) ∧
  (∀ index : Int, ¬ (index ≥ s.totalQuestions ∨ index < 0) →
    0 ≤ index ∧ index.toNat < s.studentAnswers.length) ∧
  (∀ i : Nat, (i : Int) < s.totalQuestions →
    i < s.studentAnswers.length ∧ i < s.correctAnswers.length)

/-- A call of one of the two state-dependent member functions of `EssayExam`. -/
inductive EssayCall where
  | assignScore (s : Int)
  | gradeExam

/-- The state of the essay exam after a call, whether the call returned or threw. -/
def EssayCall.exec (e : EssayExam) : EssayCall → EssayExam
  | EssayCall.assignScore s => (e.assignScore s).2
  | EssayCall.gradeExam => e.gradeExam.2

/-- The state of the essay exam after a sequence of calls. -/
def runEssayCalls (e : EssayExam) (cs : List EssayCall) : EssayExam :=
  cs.foldl EssayCall.exec e

/-- The three `catch` clauses of `main`, named by the class they catch. -/
inductive Handler where
  | InvalidExamDurationException
  | GradingErrorException
  | std_exception
  deriving DecidableEq

/-- Whether a `catch (const T &)` clause accepts an exception object: its class is `T` or is
derived from `T`.  Both custom classes derive from `std::exception` directly, and so do
`std::overflow_error`, `std::out_of_range` and `std::runtime_error` through their bases. -/
def Handler.catches : Handler → Exn → Bool
  | Handler.InvalidExamDurationException, e => decide (e = Exn.InvalidExamDurationException)
  | Handler.GradingErrorException, e => decide (e = Exn.GradingErrorException)
  | Handler.std_exception, _ => true

/-- The `catch` clauses of `main` in their textual order; the first that accepts is run. -/
def handlers : List Handler :=
  [Handler.InvalidExamDurationException, Handler.GradingErrorException, Handler.std_exception]

/-- The `try` block of `main`, statement by statement.  The result is the list of score
lines written to `std::cout` so far (label and value), and either normal completion or the
source line of the statement that threw together with the exception class.
`displayDetails` only prints and is left out. -/
def tryBlock (rawCorrect rawStudent : Nat → Char) :
    List (String × Int) × Except (Nat × Exn) Unit :=
  match MultipleChoiceExam.new rawCorrect rawStudent 101 "Math" 60 with
  | Except.error e => ([], Except.error (194, e))
  | Except.ok mc0 =>
    match mc0.addQuestion "What is 2 + 2?" ["2", "3", "4", "5"] 'C' with
    | (Except.error e, _) => ([], Except.error (198, e))
    | (Except.ok _, mc1) =>
      match mc1.addQuestion "What color is the sky?" ["Blue", "Red", "Green", "Yellow"] 'A' with
      | (Except.error e, _) => ([], Except.error (199, e))
      | (Except.ok _, mc2) =>
        match mc2.submitAnswer 0 'C' with
        | (Except.error e, _) => ([], Except.error (201, e))
        | (Except.ok _, mc3) =>
          match mc3.submitAnswer 1 'B' with
          | (Except.error e, _) => ([], Except.error (202, e))
          | (Except.ok _, mc4) =>
            match mc4.gradeExam with
            | (Except.error e, _) => ([], Except.error (205, e))
            | (Except.ok mcScore, _) =>
              match EssayExam.new 102 "English" 45 "Discuss the impact of social media." with
              | Except.error e => ([("MC Exam Score", mcScore)], Except.error (208, e))
              | Except.ok essay0 =>
                match essay0.assignScore 85 with
                | (Except.error e, _) => ([("MC Exam Score", mcScore)], Except.error (212, e))
                | (Except.ok _, essay1) =>
                  match essay1.gradeExam with
                  | (Except.error e, _) =>
                    ([("MC Exam Score", mcScore)], Except.error (213, e))
                  | (Except.ok essayScore, _) =>
                    match EssayExam.new 103 "Science" 0 "Explain photosynthesis." with
                    | Except.error e =>
                      ([("MC Exam Score", mcScore), ("Essay Exam Score", essayScore)],
                        Except.error (216, e))
                    | Except.ok _ =>
                      ([("MC Exam Score", mcScore), ("Essay Exam Score", essayScore)],
                        Except.ok ())

/-- Function `main`: the score lines written, the `catch` clause that was run if an exception
left the `try` block, and the exit code. -/
def main (rawCorrect rawStudent : Nat → Char) : List (String × Int) × Option Handler × Int :=
  match tryBlock rawCorrect rawStudent with
  | (out, Except.ok _) => (out, none, 0)
  | (out, Except.error (_, e)) => (out, handlers.find? (fun h => h.catches e), 0)

/-! ## Lemmas on the grading loop -/

/-- A counting loop over `0 .. k-1` that adds one where `p` holds and subtracts one where
`p` fails and `q` holds computes the difference of the two counts. -/
theorem foldl_plus_minus (p q : Nat → Prop) [DecidablePred p] [DecidablePred q] (k : Nat)
    (acc : Int) :
    (List.range k).foldl
        (fun score i => if p i then score + 1 else if q i then score - 1 else score) acc =
      acc + (((Finset.range k).filter p).card : Int) -
        (((Finset.range k).filter (fun i => ¬ p i ∧ q i)).card : Int) := by
  induction k with
  | zero => simp
  | succ k ih =>
    rw [List.range_succ, List.foldl_append, ih, Finset.range_succ, Finset.filter_insert,
      Finset.filter_insert]
    simp only [List.foldl_cons, List.foldl_nil]
    by_cases h1 : p k
    · simp [h1]
      omega
    · by_cases h2 : q k
      · simp [h1, h2]
        omega
      · simp [h1, h2]

theorem foldl_gradeStep (s : MultipleChoiceExam) (k : Nat) (acc : Int) :
    (List.range k).foldl (gradeStep s) acc =
      acc +
      (((Finset.range k).filter
          (fun i => s.studentAnswers.getD i NUL = s.correctAnswers.getD i NUL)).card : Int) -
      (((Finset.range k).filter
          (fun i => s.studentAnswers.getD i NUL ≠ s.correctAnswers.getD i NUL ∧
            s.studentAnswers.getD i NUL ≠ NUL)).card : Int) :=
  foldl_plus_minus (fun i => s.studentAnswers.getD i NUL = s.correctAnswers.getD i NUL)
    (fun i => s.studentAnswers.getD i NUL ≠ NUL) k acc

/-! ## The constructor and the class invariant -/

theorem foldl_clearSlot (l : List Nat) (s : MultipleChoiceExam) :
    l.foldl clearSlot s =
      { s with
        correctAnswers := l.foldl (fun a i => a.set i NUL) s.correctAnswers
        studentAnswers := l.foldl (fun a i => a.set i NUL) s.studentAnswers } := by
  induction l generalizing s with
  | nil => rfl
  | cons i l ih =>
    rw [List.foldl_cons, ih]
    rfl

theorem foldl_set_getElem? (v : Char) (l : List Nat) (a : List Char) (j : Nat) :
    (l.foldl (fun a i => a.set i v) a)[j]? =
      if j ∈ l then (a[j]?).map (fun _ => v) else a[j]? := by
  induction l generalizing a with
  | nil => simp
  | cons i l ih =>
    rw [List.foldl_cons, ih, List.getElem?_set]
    by_cases hj : j ∈ l
    · by_cases hij : i = j
      · subst hij
        by_cases hlt : i < a.length
        · simp [hj, hlt]
        · simp [hj, hlt, List.getElem?_eq_none (not_lt.mp hlt)]
      · simp [hj, hij]
    · by_cases hij : i = j
      · subst hij
        by_cases hlt : i < a.length
        · simp [hlt]
        · simp [hlt, List.getElem?_eq_none (not_lt.mp hlt)]
      · have hji : ¬ j = i := fun h => hij h.symm
        simp [hj, hij, hji]

theorem foldl_set_range_map (raw : Nat → Char) (n : Nat) :
    (List.range n).foldl (fun a i => a.set i NUL) ((List.range n).map raw) =
      List.replicate n NUL := by
  apply List.ext_getElem?
  intro j
  rw [foldl_set_getElem?]
  by_cases hj : j < n
  · simp [hj, List.getElem?_replicate, List.getElem?_range]
  · simp [hj, List.getElem?_replicate]
    omega

theorem foldl_set_range (raw : Nat → Char) :
    (List.range 50).foldl (fun a i => a.set i NUL) ((List.range 50).map raw) =
      List.replicate 50 NUL :=
  foldl_set_range_map raw 50

/-- The state that a successful construction produces. -/
theorem new_eq_ok (rawCorrect rawStudent : Nat → Char) (id : Int) (subj : String) (dur : Int)
    (h : 0 < dur) :
    MultipleChoiceExam.new rawCorrect rawStudent id subj dur =
      Except.ok
        { toExam := ⟨id, subj, dur⟩
          questions := List.replicate 50 ""
          options := List.replicate 50 (List.replicate 4 "")
          correctAnswers := List.replicate 50 NUL
          studentAnswers := List.replicate 50 NUL
          totalQuestions := 0 } := by
  have hd : ¬ dur ≤ 0 := by omega
  simp only [MultipleChoiceExam.new, Exam.new, hd, if_false, foldl_clearSlot, foldl_set_range]

theorem new_eq_error (rawCorrect rawStudent : Nat → Char) (id : Int) (subj : String)
    (dur : Int) (h : dur ≤ 0) :
    MultipleChoiceExam.new rawCorrect rawStudent id subj dur =
      Except.error Exn.InvalidExamDurationException := by
  simp only [MultipleChoiceExam.new, Exam.new, h, if_true]

theorem new_inv (rawCorrect rawStudent : Nat → Char) (id : Int) (subj : String) (dur : Int)
    (s : MultipleChoiceExam)
    (h : MultipleChoiceExam.new rawCorrect rawStudent id subj dur = Except.ok s) : s.Inv := by
  by_cases hd : dur ≤ 0
  · rw [new_eq_error _ _ _ _ _ hd] at h
    cases h
  · rw [new_eq_ok _ _ _ _ _ (by omega)] at h
    cases h
    simp [MultipleChoiceExam.Inv]

theorem foldl_copyOption (opts : List String) (l : List Nat) (s : MultipleChoiceExam) :
    (l.foldl (copyOption opts) s).toExam = s.toExam ∧
    (l.foldl (copyOption opts) s).questions = s.questions ∧
    (l.foldl (copyOption opts) s).correctAnswers = s.correctAnswers ∧
    (l.foldl (copyOption opts) s).studentAnswers = s.studentAnswers ∧
    (l.foldl (copyOption opts) s).totalQuestions = s.totalQuestions ∧
    (l.foldl (copyOption opts) s).options.length = s.options.length ∧
    ((∀ row ∈ s.options, row.length = 4) →
      ∀ row ∈ (l.foldl (copyOption opts) s).options, row.length = 4) := by
  induction l generalizing s with
  | nil => simp
  | cons i l ih =>
    obtain ⟨h1, h2, h3, h4, h5, h6, h7⟩ := ih (copyOption opts s i)
    simp only [List.foldl_cons]
    refine ⟨h1, h2, h3, h4, h5, ?_, ?_⟩
    · rw [h6]
      simp [copyOption]
    · intro hrows
      apply h7
      intro row hrow
      simp only [copyOption] at hrow
      by_cases hn : s.totalQuestions.toNat < s.options.length
      · rcases List.mem_or_eq_of_mem_set hrow with hmem | heq
        · exact hrows row hmem
        · rw [heq, List.length_set]
          apply hrows
          rw [List.getD_eq_getElem _ _ hn]
          exact List.getElem_mem hn
      · rw [List.set_eq_of_length_le (by omega)] at hrow
        exact hrows row hrow

/-- The driver's constructor calls produce `driverFresh` and `driverEssay`. -/
theorem driver_construction :
    MultipleChoiceExam.new (fun _ => 'x') (fun _ => 'y') 101 "Math" 60 = Except.ok driverFresh ∧
    EssayExam.new 102 "English" 45 "Discuss the impact of social media." =
      Except.ok driverEssay := by
  refine ⟨?_, rfl⟩
  rw [new_eq_ok _ _ _ _ _ (by decide)]
  have h : driverFresh =
      { toExam := ⟨101, "Math", 60⟩
        questions := List.replicate 50 ""
        options := List.replicate 50 (List.replicate 4 "")
        correctAnswers := List.replicate 50 NUL
        studentAnswers := List.replicate 50 NUL
        totalQuestions := 0 } := by
    decide
  rw [h]

/-! ## Effect of the member functions -/

theorem addQuestion_of_full (s : MultipleChoiceExam) (qText : String) (opts : List String)
    (correct : Char) (h : 50 ≤ s.totalQuestions) :
    s.addQuestion qText opts correct = (Except.error Exn.overflow_error, s) := by
  have h2 : s.totalQuestions ≥ 50 := h
  simp only [addQuestion, h2, if_true]

theorem addQuestion_of_room (s : MultipleChoiceExam) (qText : String) (opts : List String)
    (correct : Char) (h : s.totalQuestions < 50) :
    (s.addQuestion qText opts correct).1 = Except.ok () ∧
    (s.addQuestion qText opts correct).2.totalQuestions = s.totalQuestions + 1 ∧
    (s.addQuestion qText opts correct).2.studentAnswers = s.studentAnswers ∧
    (s.addQuestion qText opts correct).2.correctAnswers =
      s.correctAnswers.set s.totalQuestions.toNat correct ∧
    (s.addQuestion qText opts correct).2.questions =
      s.questions.set s.totalQuestions.toNat qText := by
  have h2 : ¬ s.totalQuestions ≥ 50 := by omega
  simp only [addQuestion, h2, if_false]
  obtain ⟨-, hq, hc, hs, ht, -, -⟩ := foldl_copyOption opts (List.range 4)
    { s with questions := s.questions.set s.totalQuestions.toNat qText }
  simp only [hq, hc, hs, ht, and_self]

theorem addQuestion_inv (s : MultipleChoiceExam) (qText : String) (opts : List String)
    (correct : Char) (hinv : s.Inv) : (s.addQuestion qText opts correct).2.Inv := by
  by_cases h : 50 ≤ s.totalQuestions
  · rw [addQuestion_of_full s qText opts correct h]
    exact hinv
  · have h2 : ¬ s.totalQuestions ≥ 50 := h
    obtain ⟨hq, ho, hrow, hc, hs, h0, h50⟩ := hinv
    obtain ⟨-, fq, fc, fs, ft, fo, frow⟩ := foldl_copyOption opts (List.range 4)
      { s with questions := s.questions.set s.totalQuestions.toNat qText }
    simp only [addQuestion, h2, if_false, MultipleChoiceExam.Inv]
    simp only [fq, fc, fs, ft, fo]
    refine ⟨by simpa using hq, ho, frow hrow, by simpa using hc, hs, by omega, by omega⟩

theorem submitAnswer_of_invalid (s : MultipleChoiceExam) (index : Int) (answer : Char)
    (h : index ≥ s.totalQuestions ∨ index < 0) :
    s.submitAnswer index answer = (Except.error Exn.out_of_range, s) := by
  simp only [submitAnswer, h, if_true]

theorem submitAnswer_of_valid (s : MultipleChoiceExam) (index : Int) (answer : Char)
    (h0 : 0 ≤ index) (hn : index < s.totalQuestions) :
    s.submitAnswer index answer =
      (Except.ok (), { s with studentAnswers := s.studentAnswers.set index.toNat answer }) := by
  have h : ¬ (index ≥ s.totalQuestions ∨ index < 0) := by omega
  simp only [submitAnswer, h, if_false]

theorem submitAnswer_inv (s : MultipleChoiceExam) (index : Int) (answer : Char)
    (hinv : s.Inv) : (s.submitAnswer index answer).2.Inv := by
  by_cases h : index ≥ s.totalQuestions ∨ index < 0
  · rw [submitAnswer_of_invalid s index answer h]
    exact hinv
  · rw [submitAnswer_of_valid s index answer (by omega) (by omega)]
    obtain ⟨hq, ho, hrow, hc, hs, h0, h50⟩ := hinv
    exact ⟨hq, ho, hrow, hc, by simpa using hs, h0, h50⟩

theorem gradeExam_state (s : MultipleChoiceExam) : s.gradeExam.2 = s := by
  unfold gradeExam
  split <;> rfl

theorem exec_inv (s : MultipleChoiceExam) (c : Call) (hinv : s.Inv) : (Call.exec s c).Inv := by
  cases c with
  | addQuestion qText opts correct => exact addQuestion_inv s qText opts correct hinv
  | submitAnswer index answer => exact submitAnswer_inv s index answer hinv
  | gradeExam =>
    simp only [Call.exec, gradeExam_state]
    exact hinv

theorem exec_totalQuestions_le (s : MultipleChoiceExam) (c : Call) :
    s.totalQuestions ≤ (Call.exec s c).totalQuestions := by
  cases c with
  | addQuestion qText opts correct =>
    by_cases h : 50 ≤ s.totalQuestions
    · simp only [Call.exec, addQuestion_of_full s qText opts correct h, le_refl]
    · have := (addQuestion_of_room s qText opts correct (by omega)).2.1
      simp only [Call.exec, this]
      omega
  | submitAnswer index answer =>
    by_cases h : index ≥ s.totalQuestions ∨ index < 0
    · simp only [Call.exec, submitAnswer_of_invalid s index answer h, le_refl]
    · simp only [Call.exec, submitAnswer_of_valid s index answer (by omega) (by omega), le_refl]
  | gradeExam => simp only [Call.exec, gradeExam_state, le_refl]

theorem runCalls_totalQuestions_le (cs : List Call) (s : MultipleChoiceExam) :
    s.totalQuestions ≤ (runCalls s cs).totalQuestions := by
  induction cs generalizing s with
  | nil => exact le_refl _
  | cons c cs ih =>
    exact le_trans (exec_totalQuestions_le s c) (ih (Call.exec s c))

theorem runCalls_inv (cs : List Call) (s : MultipleChoiceExam) (hinv : s.Inv) :
    (runCalls s cs).Inv := by
  induction cs generalizing s with
  | nil => exact hinv
  | cons c cs ih => exact ih (Call.exec s c) (exec_inv s c hinv)

theorem addQuestions_of_room (qs : List (String × List String × Char))
    (s : MultipleChoiceExam) (h : s.totalQuestions + qs.length ≤ 50) :
    (addQuestions s qs).1 = Except.ok () ∧
    (addQuestions s qs).2.totalQuestions = s.totalQuestions + qs.length := by
  induction qs generalizing s with
  | nil => simp [addQuestions]
  | cons q qs ih =>
    simp only [List.length_cons, Nat.cast_add, Nat.cast_one] at h
    obtain ⟨h1, h2, -⟩ := addQuestion_of_room s q.1 q.2.1 q.2.2 (by omega)
    have hstep : addQuestions s (q :: qs) =
        addQuestions (s.addQuestion q.1 q.2.1 q.2.2).2 qs := by
      rw [addQuestions]
      generalize s.addQuestion q.1 q.2.1 q.2.2 = r at h1
      obtain ⟨o, s1⟩ := r
      simp only at h1
      subst h1
      rfl
    rw [hstep]
    obtain ⟨i1, i2⟩ := ih (s.addQuestion q.1 q.2.1 q.2.2).2 (by rw [h2]; omega)
    refine ⟨i1, ?_⟩
    rw [i2, h2]
    simp only [List.length_cons, Nat.cast_add, Nat.cast_one]
    omega

/-! ## Claims -/

/-- C1: for every exam state with question count `n`, `1 ≤ n ≤ 50`, `gradeExam` succeeds,
leaves the state as it is, and returns exactly the number of indices `i < n` whose submitted
answer equals the correct answer minus the number of indices `i < n` whose submitted answer
differs from the correct answer and is not the unset sentinel. -/
theorem gradeExam_eq_scoreSpec (s : MultipleChoiceExam) (h1 : 1 ≤ s.totalQuestions)
    (_h50 : s.totalQuestions ≤ 50) :
    s.gradeExam = (Except.ok (scoreSpec s), s) := by
  have hpos : ¬ s.totalQuestions ≤ 0 := by omega
  simp only [gradeExam, hpos, if_false, scoreSpec, foldl_gradeStep, zero_add]

/-- C1, driver instance: keys `['C','A']` with submitted answers `['C','B']` grade to `0`. -/
theorem gradeExam_eq_scoreSpec_witness :
    driverExam.totalQuestions = 2 ∧
    driverExam.correctAnswers.take 2 = ['C', 'A'] ∧
    driverExam.studentAnswers.take 2 = ['C', 'B'] ∧
    driverExam.gradeExam = (Except.ok (scoreSpec driverExam), driverExam) ∧
    scoreSpec driverExam = 0 :=
  ⟨by decide, by decide, by decide,
    gradeExam_eq_scoreSpec driverExam (by decide) (by decide), by decide⟩

/-- C2 (evaluation of the code at an input where the claim fails): after one `addQuestion`
with the correct letter `'\0'` and no `submitAnswer`, question `0` has the unset submitted
answer, yet `gradeExam` returns `1`, while the score counted over the other questions is `0`. -/
theorem gradeExam_nul_key_unanswered :
    nulKeyExam.totalQuestions = 1 ∧
    nulKeyExam.correctAnswers.getD 0 NUL = NUL ∧
    nulKeyExam.studentAnswers.getD 0 NUL = NUL ∧
    nulKeyExam.gradeExam.1 = Except.ok 1 ∧
    scoreWithout nulKeyExam 0 = 0 :=
  ⟨by decide, by decide, by decide, by rfl, by decide⟩

/-- Where the correct letter of question `i` is not `'\0'`, an unanswered question `i`
contributes nothing: the result is the score counted over the other questions. -/
theorem gradeExam_unanswered_of_key_ne_nul (s : MultipleChoiceExam)
    (h1 : 1 ≤ s.totalQuestions) (i : Nat) (hblank : s.studentAnswers.getD i NUL = NUL)
    (hkey : s.correctAnswers.getD i NUL ≠ NUL) :
    s.gradeExam = (Except.ok (scoreWithout s i), s) := by
  have hpos : ¬ s.totalQuestions ≤ 0 := by omega
  simp only [gradeExam, hpos, if_false, scoreWithout, foldl_gradeStep, zero_add]
  have e1 : (Finset.range s.totalQuestions.toNat).filter
        (fun j => s.studentAnswers.getD j NUL = s.correctAnswers.getD j NUL) =
      (Finset.range s.totalQuestions.toNat).filter
        (fun j => j ≠ i ∧ s.studentAnswers.getD j NUL = s.correctAnswers.getD j NUL) := by
    apply Finset.filter_congr
    intro j _
    constructor
    · intro hj
      refine ⟨?_, hj⟩
      intro hji
      subst hji
      exact hkey (hj ▸ hblank)
    · exact fun hj => hj.2
  have e2 : (Finset.range s.totalQuestions.toNat).filter
        (fun j => s.studentAnswers.getD j NUL ≠ s.correctAnswers.getD j NUL ∧
          s.studentAnswers.getD j NUL ≠ NUL) =
      (Finset.range s.totalQuestions.toNat).filter
        (fun j => j ≠ i ∧ s.studentAnswers.getD j NUL ≠ s.correctAnswers.getD j NUL ∧
          s.studentAnswers.getD j NUL ≠ NUL) := by
    apply Finset.filter_congr
    intro j _
    constructor
    · intro hj
      refine ⟨?_, hj⟩
      intro hji
      subst hji
      exact hj.2 hblank
    · exact fun hj => hj.2
  rw [e1, e2]

/-- C3: for every id, subject and duration, constructing a `MultipleChoiceExam` or an
`EssayExam` throws `InvalidExamDurationException` if and only if `duration ≤ 0`; for
`duration > 0` the construction succeeds and yields a multiple-choice exam with zero
questions and every submitted answer unset, respectively an essay exam with score `-1`. -/
theorem construction_invalid_duration_iff (rawCorrect rawStudent : Nat → Char) (id : Int)
    (subj : String) (dur : Int) (top : String) :
    (MultipleChoiceExam.new rawCorrect rawStudent id subj dur =
        Except.error Exn.InvalidExamDurationException ↔ dur ≤ 0) ∧
    (EssayExam.new id subj dur top = Except.error Exn.InvalidExamDurationException ↔ dur ≤ 0) ∧
    (0 < dur → ∃ s, MultipleChoiceExam.new rawCorrect rawStudent id subj dur = Except.ok s ∧
        s.totalQuestions = 0 ∧ s.studentAnswers = List.replicate 50 NUL) ∧
    (0 < dur → ∃ e, EssayExam.new id subj dur top = Except.ok e ∧ e.score = -1) := by
  refine ⟨⟨?_, new_eq_error _ _ _ _ _⟩, ⟨?_, ?_⟩, ?_, ?_⟩
  · intro h
    by_contra hd
    rw [new_eq_ok _ _ _ _ _ (by omega)] at h
    cases h
  · intro h
    by_contra hd
    simp only [EssayExam.new, Exam.new, hd, if_false] at h
    cases h
  · intro hd
    simp only [EssayExam.new, Exam.new, hd, if_true]
  · intro hd
    exact ⟨_, new_eq_ok _ _ _ _ _ hd, rfl, rfl⟩
  · intro hd
    have hd2 : ¬ dur ≤ 0 := by omega
    refine ⟨{ toExam := ⟨id, subj, dur⟩, topic := top, score := -1 }, ?_, rfl⟩
    simp only [EssayExam.new, Exam.new, hd2, if_false]

/-- C3, driver instance: `EssayExam(103, "Science", 0, ...)` throws
`InvalidExamDurationException`, and `MultipleChoiceExam(101, "Math", 60)` is constructed. -/
theorem construction_invalid_duration_iff_witness :
    EssayExam.new 103 "Science" 0 "Explain photosynthesis." =
      Except.error Exn.InvalidExamDurationException ∧
    ∃ s, MultipleChoiceExam.new (fun _ => 'x') (fun _ => 'y') 101 "Math" 60 = Except.ok s ∧
      s.totalQuestions = 0 ∧ s.studentAnswers = List.replicate 50 NUL :=
  ⟨(construction_invalid_duration_iff (fun _ => 'x') (fun _ => 'y') 103 "Science" 0
      "Explain photosynthesis.").2.1.mpr (by decide),
    (construction_invalid_duration_iff (fun _ => 'x') (fun _ => 'y') 101 "Math" 60
      "").2.2.1 (by decide)⟩

/-- C4: `addQuestion` throws `overflow_error` if and only if the exam already holds 50 or
more questions, and returns normally if and only if it holds fewer; starting from a freshly
constructed exam, any sequence of at most 50 consecutive `addQuestion` calls succeeds, with
the question count equal to the number of calls, and a call that follows 50 calls throws
`overflow_error`. -/
theorem addQuestion_overflow_iff (s : MultipleChoiceExam) (qText : String) (opts : List String)
    (correct : Char) (rawCorrect rawStudent : Nat → Char) (id : Int) (subj : String)
    (dur : Int) (hdur : 0 < dur) :
    ((s.addQuestion qText opts correct).1 = Except.error Exn.overflow_error ↔
      50 ≤ s.totalQuestions) ∧
    ((s.addQuestion qText opts correct).1 = Except.ok () ↔ s.totalQuestions < 50) ∧
    ∃ fresh, MultipleChoiceExam.new rawCorrect rawStudent id subj dur = Except.ok fresh ∧
      ∀ qs : List (String × List String × Char), qs.length ≤ 50 →
        (addQuestions fresh qs).1 = Except.ok () ∧
        (addQuestions fresh qs).2.totalQuestions = qs.length ∧
        (qs.length = 50 →
          ((addQuestions fresh qs).2.addQuestion qText opts correct).1 =
            Except.error Exn.overflow_error) := by
  refine ⟨⟨?_, ?_⟩, ⟨?_, ?_⟩, ?_⟩
  · intro h
    by_contra hn
    rw [(addQuestion_of_room s qText opts correct (by omega)).1] at h
    cases h
  · intro h
    rw [addQuestion_of_full s qText opts correct h]
  · intro h
    by_contra hn
    rw [addQuestion_of_full s qText opts correct (by omega)] at h
    cases h
  · intro h
    exact (addQuestion_of_room s qText opts correct h).1
  · refine ⟨_, new_eq_ok _ _ _ _ _ hdur, ?_⟩
    intro qs hlen
    have hroom := addQuestions_of_room qs
      { toExam := ⟨id, subj, dur⟩
        questions := List.replicate 50 ""
        options := List.replicate 50 (List.replicate 4 "")
        correctAnswers := List.replicate 50 NUL
        studentAnswers := List.replicate 50 NUL
        totalQuestions := 0 }
      (by simp only [zero_add]; omega)
    obtain ⟨h1, h2⟩ := hroom
    simp only [zero_add] at h2
    refine ⟨h1, h2, ?_⟩
    intro h50
    rw [addQuestion_of_full _ qText opts correct (by rw [h2, h50]; decide)]

/-- C4, instance: on the driver's exam `MultipleChoiceExam(101, "Math", 60)`, which holds two
questions when graded, a further `addQuestion` returns normally; after construction fifty
calls succeed and the next one throws. -/
theorem addQuestion_overflow_iff_witness :
    (driverExam.addQuestion "Q" ["a", "b", "c", "d"] 'D').1 = Except.ok () ∧
    ∃ fresh, MultipleChoiceExam.new (fun _ => 'x') (fun _ => 'y') 101 "Math" 60 =
        Except.ok fresh ∧
      (addQuestions fresh (List.replicate 50 ("Q", ["a", "b", "c", "d"], 'D'))).1 =
        Except.ok () ∧
      ((addQuestions fresh (List.replicate 50 ("Q", ["a", "b", "c", "d"], 'D'))).2.addQuestion
        "Q" ["a", "b", "c", "d"] 'D').1 = Except.error Exn.overflow_error :=
  have h := addQuestion_overflow_iff driverExam "Q" ["a", "b", "c", "d"] 'D'
    (fun _ => 'x') (fun _ => 'y') 101 "Math" 60 (by decide)
  ⟨h.2.1.mpr (by decide),
    h.2.2.elim fun fresh hf =>
      ⟨fresh, hf.1,
        (hf.2 (List.replicate 50 ("Q", ["a", "b", "c", "d"], 'D')) (by decide)).1,
        (hf.2 (List.replicate 50 ("Q", ["a", "b", "c", "d"], 'D')) (by decide)).2.2
          (by decide)⟩⟩

/-- C5: for every exam state satisfying the class invariant, with question count `n`, every
integer index and every answer letter, `submitAnswer(index, answer)` throws `out_of_range`
if and only if `index < 0` or `index ≥ n`; for `0 ≤ index < n` it returns normally and
afterwards the submitted answer stored at `index` is the given letter. -/
theorem submitAnswer_out_of_range_iff (s : MultipleChoiceExam) (hinv : s.Inv) (index : Int)
    (answer : Char) :
    ((s.submitAnswer index answer).1 = Except.error Exn.out_of_range ↔
      index < 0 ∨ index ≥ s.totalQuestions) ∧
    (0 ≤ index → index < s.totalQuestions →
      (s.submitAnswer index answer).1 = Except.ok () ∧
      (s.submitAnswer index answer).2.studentAnswers[index.toNat]? = some answer) := by
  refine ⟨⟨?_, ?_⟩, ?_⟩
  · intro h
    by_contra hn
    rw [submitAnswer_of_valid s index answer (by omega) (by omega)] at h
    cases h
  · intro h
    rw [submitAnswer_of_invalid s index answer (by omega)]
  · intro h0 hn
    rw [submitAnswer_of_valid s index answer h0 hn]
    obtain ⟨-, -, -, -, hs, -, h50⟩ := hinv
    refine ⟨rfl, ?_⟩
    simp only
    rw [List.getElem?_set_self]
    omega

/-- C5, driver instance: on the driver's exam with two questions, `submitAnswer(1, 'D')`
returns normally and stores `'D'` at index 1, and `submitAnswer(2, 'D')` throws. -/
theorem submitAnswer_out_of_range_iff_witness :
    driverExam.Inv ∧
    ((driverExam.submitAnswer 1 'D').1 = Except.ok () ∧
      (driverExam.submitAnswer 1 'D').2.studentAnswers[(1 : Int).toNat]? = some 'D') ∧
    (driverExam.submitAnswer 2 'D').1 = Except.error Exn.out_of_range :=
  ⟨by decide,
    (submitAnswer_out_of_range_iff driverExam (by decide) 1 'D').2 (by decide) (by decide),
    (submitAnswer_out_of_range_iff driverExam (by decide) 2 'D').1.mpr (by decide)⟩

/-- C6: for every exam state, index `i` with `0 ≤ i < n` and letters `a`, `b`: calling
`submitAnswer(i, a)` twice leaves the same state as calling it once, and `submitAnswer(i, a)`
followed by `submitAnswer(i, b)` leaves the same state as `submitAnswer(i, b)` alone; all
these calls return normally. -/
theorem submitAnswer_idempotent_last_write (s : MultipleChoiceExam) (i : Int) (a b : Char)
    (h0 : 0 ≤ i) (hn : i < s.totalQuestions) :
    (s.submitAnswer i a).1 = Except.ok () ∧
    ((s.submitAnswer i a).2.submitAnswer i a) = s.submitAnswer i a ∧
    ((s.submitAnswer i a).2.submitAnswer i b) = s.submitAnswer i b := by
  have key : ∀ c : Char, ((s.submitAnswer i a).2.submitAnswer i c) = s.submitAnswer i c := by
    intro c
    rw [submitAnswer_of_valid s i a h0 hn, submitAnswer_of_valid s i c h0 hn,
      submitAnswer_of_valid { s with studentAnswers := s.studentAnswers.set i.toNat a } i c h0 hn]
    simp only [List.set_set]
  refine ⟨?_, key a, key b⟩
  rw [submitAnswer_of_valid s i a h0 hn]

/-- C6, driver instance: on the driver's exam, answering question 1 with `'A'` and then with
`'B'` gives the state of answering it with `'B'`. -/
theorem submitAnswer_idempotent_last_write_witness :
    (driverExam.submitAnswer 1 'A').1 = Except.ok () ∧
    ((driverExam.submitAnswer 1 'A').2.submitAnswer 1 'A') = driverExam.submitAnswer 1 'A' ∧
    ((driverExam.submitAnswer 1 'A').2.submitAnswer 1 'B') = driverExam.submitAnswer 1 'B' :=
  submitAnswer_idempotent_last_write driverExam 1 'A' 'B' (by decide) (by decide)

/-- C7: for every exam state satisfying the class invariant, `gradeExam` throws
`GradingErrorException` if and only if the exam has zero questions, and returns a score if
and only if it has at least one; it throws on every freshly constructed exam; and once an
`addQuestion` has returned normally, `gradeExam` returns a score after any further sequence
of `addQuestion`, `submitAnswer` and `gradeExam` calls. -/
theorem gradeExam_error_iff (s : MultipleChoiceExam) (hinv : s.Inv) :
    (s.gradeExam.1 = Except.error Exn.GradingErrorException ↔ s.totalQuestions = 0) ∧
    ((∃ score, s.gradeExam.1 = Except.ok score) ↔ s.totalQuestions ≠ 0) ∧
    (∀ (rawCorrect rawStudent : Nat → Char) (id : Int) (subj : String) (dur : Int)
        (fresh : MultipleChoiceExam),
        MultipleChoiceExam.new rawCorrect rawStudent id subj dur = Except.ok fresh →
        fresh.gradeExam.1 = Except.error Exn.GradingErrorException) ∧
    (∀ (qText : String) (opts : List String) (correct : Char),
        (s.addQuestion qText opts correct).1 = Except.ok () →
        ∀ cs : List Call, ∃ score,
          (runCalls (s.addQuestion qText opts correct).2 cs).gradeExam.1 = Except.ok score) := by
  have hgrade : ∀ t : MultipleChoiceExam,
      (t.totalQuestions ≤ 0 → t.gradeExam.1 = Except.error Exn.GradingErrorException) ∧
      (¬ t.totalQuestions ≤ 0 → ∃ score, t.gradeExam.1 = Except.ok score) := by
    intro t
    constructor
    · intro h
      simp only [gradeExam, h, if_true]
    · intro h
      refine ⟨(List.range t.totalQuestions.toNat).foldl (gradeStep t) 0, ?_⟩
      simp only [gradeExam, h, if_false]
  have h0 : 0 ≤ s.totalQuestions := hinv.2.2.2.2.2.1
  refine ⟨⟨?_, ?_⟩, ⟨?_, ?_⟩, ?_, ?_⟩
  · intro h
    by_contra hne
    obtain ⟨score, hs⟩ := (hgrade s).2 (by omega)
    rw [hs] at h
    cases h
  · intro h
    exact (hgrade s).1 (by omega)
  · rintro ⟨score, hs⟩ hz
    rw [(hgrade s).1 (by omega)] at hs
    cases hs
  · intro hne
    exact (hgrade s).2 (by omega)
  · intro rawCorrect rawStudent id subj dur fresh hnew
    by_cases hd : dur ≤ 0
    · rw [new_eq_error _ _ _ _ _ hd] at hnew
      cases hnew
    · rw [new_eq_ok _ _ _ _ _ (by omega)] at hnew
      cases hnew
      rfl
  · intro qText opts correct hok cs
    have hlt : s.totalQuestions < 50 := by
      by_contra hge
      rw [addQuestion_of_full s qText opts correct (by omega)] at hok
      cases hok
    have hcount := (addQuestion_of_room s qText opts correct hlt).2.1
    have hmono := runCalls_totalQuestions_le cs (s.addQuestion qText opts correct).2
    exact (hgrade _).2 (by omega)

/-- C7, driver instance: `gradeExam` throws on the driver's exam right after construction
and returns a score once the first question was added and further calls were made. -/
theorem gradeExam_error_iff_witness :
    driverFresh.Inv ∧
    driverFresh.gradeExam.1 = Except.error Exn.GradingErrorException ∧
    ∃ score,
      (runCalls (driverFresh.addQuestion "What is 2 + 2?" ["2", "3", "4", "5"] 'C').2
        [Call.submitAnswer 0 'C', Call.gradeExam, Call.submitAnswer 7 'B']).gradeExam.1 =
        Except.ok score :=
  ⟨by decide,
    (gradeExam_error_iff driverFresh (by decide)).1.mpr (by decide),
    (gradeExam_error_iff driverFresh (by decide)).2.2.2 "What is 2 + 2?" ["2", "3", "4", "5"]
      'C' (by rfl) [Call.submitAnswer 0 'C', Call.gradeExam, Call.submitAnswer 7 'B']⟩

/-- C8: for every essay exam state and every integer `s`, `assignScore(s)` throws
`GradingErrorException` if and only if `s < 0` or `s > 100`; for `0 ≤ s ≤ 100` it returns
normally and the stored score afterwards equals `s`. -/
theorem assignScore_error_iff (e : EssayExam) (s : Int) :
    ((e.assignScore s).1 = Except.error Exn.GradingErrorException ↔ s < 0 ∨ s > 100) ∧
    (0 ≤ s → s ≤ 100 →
      (e.assignScore s).1 = Except.ok () ∧ (e.assignScore s).2.score = s) := by
  by_cases h : s < 0 ∨ s > 100
  · refine ⟨⟨fun _ => h, fun _ => ?_⟩, ?_⟩
    · simp only [EssayExam.assignScore, h, if_true]
    · intro h0 h100
      omega
  · refine ⟨⟨fun herr => ?_, fun hs => absurd hs h⟩, fun _ _ => ?_⟩
    · simp only [EssayExam.assignScore, h, if_false] at herr
      cases herr
    · simp only [EssayExam.assignScore, h, if_false, and_self]

/-- C8, driver instance: on the driver's essay exam `assignScore(85)` stores 85 and
`assignScore(101)` throws. -/
theorem assignScore_error_iff_witness :
    (driverEssay.assignScore 85).2.score = 85 ∧
    (driverEssay.assignScore 101).1 = Except.error Exn.GradingErrorException :=
  ⟨((assignScore_error_iff driverEssay 85).2 (by decide) (by decide)).2,
    (assignScore_error_iff driverEssay 101).1.mpr (by decide)⟩

/-- C9: `gradeExam` on a freshly constructed essay exam throws `runtime_error` (not yet
graded); for every essay exam state and every `s` with `0 ≤ s ≤ 100`, `assignScore(s)`
returns normally and a following `gradeExam` returns exactly `s`. -/
theorem essay_gradeExam_roundtrip (id : Int) (subj : String) (dur : Int) (top : String)
    (e : EssayExam) (s : Int) :
    (∀ fresh, EssayExam.new id subj dur top = Except.ok fresh →
      fresh.gradeExam.1 = Except.error Exn.runtime_error) ∧
    (0 ≤ s → s ≤ 100 →
      (e.assignScore s).1 = Except.ok () ∧
      (e.assignScore s).2.gradeExam.1 = Except.ok s) := by
  constructor
  · intro fresh hnew
    by_cases hd : dur ≤ 0
    · simp only [EssayExam.new, Exam.new, hd, if_true] at hnew
      cases hnew
    · simp only [EssayExam.new, Exam.new, hd, if_false] at hnew
      cases hnew
      rfl
  · intro h0 h100
    have h : ¬ (s < 0 ∨ s > 100) := by omega
    have hne : ¬ s = -1 := by omega
    simp only [EssayExam.assignScore, h, if_false, EssayExam.gradeExam, hne, and_self]

/-- C9, driver instance: the essay exam `EssayExam(102, "English", 45, ...)` throws
`runtime_error` when graded right after construction, and `assignScore(85)` followed by
`gradeExam` returns 85. -/
theorem essay_gradeExam_roundtrip_witness :
    driverEssay.gradeExam.1 = Except.error Exn.runtime_error ∧
    (driverEssay.assignScore 85).2.gradeExam.1 = Except.ok 85 :=
  ⟨(essay_gradeExam_roundtrip 102 "English" 45 "Discuss the impact of social media."
      driverEssay 85).1 driverEssay (by rfl),
    ((essay_gradeExam_roundtrip 102 "English" 45 "Discuss the impact of social media."
      driverEssay 85).2 (by decide) (by decide)).2⟩

/-! ## Reachable states -/

theorem indicesInBounds_of_inv (s : MultipleChoiceExam) (hinv : s.Inv) : IndicesInBounds s := by
  obtain ⟨hq, ho, hrow, hc, hs, h0, h50⟩ := hinv
  refine ⟨?_, ?_, ?_⟩
  · intro hlt
    have hn : s.totalQuestions.toNat < 50 := by omega
    refine ⟨h0, by omega, by omega, ?_, by omega⟩
    intro i hi
    have hmem : s.options.getD s.totalQuestions.toNat [] ∈ s.options := by
      rw [List.getD_eq_getElem _ _ (by omega)]
      exact List.getElem_mem _
    rw [hrow _ hmem]
    exact hi
  · intro index hidx
    omega
  · intro i hi
    omega

/-- C11: in every state reached from a successful construction by any sequence of
`addQuestion`, `submitAnswer` and `gradeExam` calls, returning or throwing, the class
invariant holds, the question count `n` satisfies `0 ≤ n ≤ 50`, and every array index that
the member functions use is within the arrays. -/
theorem reachable_totalQuestions_bounds (rawCorrect rawStudent : Nat → Char) (id : Int)
    (subj : String) (dur : Int) (fresh : MultipleChoiceExam)
    (hnew : MultipleChoiceExam.new rawCorrect rawStudent id subj dur = Except.ok fresh)
    (cs : List Call) :
    0 ≤ (runCalls fresh cs).totalQuestions ∧
    (runCalls fresh cs).totalQuestions ≤ 50 ∧
    (runCalls fresh cs).Inv ∧
    IndicesInBounds (runCalls fresh cs) := by
  have hinv : (runCalls fresh cs).Inv :=
    runCalls_inv cs fresh (new_inv rawCorrect rawStudent id subj dur fresh hnew)
  exact ⟨hinv.2.2.2.2.2.1, hinv.2.2.2.2.2.2, hinv, indicesInBounds_of_inv _ hinv⟩

/-- C11, driver instance: the bounds hold on the driver's exam after its five calls and a
failing sixth one. -/
theorem reachable_totalQuestions_bounds_witness :
    0 ≤ (runCalls driverFresh
      [Call.addQuestion "What is 2 + 2?" ["2", "3", "4", "5"] 'C',
        Call.addQuestion "What color is the sky?" ["Blue", "Red", "Green", "Yellow"] 'A',
        Call.submitAnswer 0 'C', Call.submitAnswer 1 'B', Call.gradeExam,
        Call.submitAnswer 2 'D']).totalQuestions ∧
    (runCalls driverFresh
      [Call.addQuestion "What is 2 + 2?" ["2", "3", "4", "5"] 'C',
        Call.addQuestion "What color is the sky?" ["Blue", "Red", "Green", "Yellow"] 'A',
        Call.submitAnswer 0 'C', Call.submitAnswer 1 'B', Call.gradeExam,
        Call.submitAnswer 2 'D']).totalQuestions ≤ 50 :=
  have h := reachable_totalQuestions_bounds (fun _ => 'x') (fun _ => 'y') 101 "Math" 60
    driverFresh driver_construction.1
    [Call.addQuestion "What is 2 + 2?" ["2", "3", "4", "5"] 'C',
      Call.addQuestion "What color is the sky?" ["Blue", "Red", "Green", "Yellow"] 'A',
      Call.submitAnswer 0 'C', Call.submitAnswer 1 'B', Call.gradeExam,
      Call.submitAnswer 2 'D']
  ⟨h.1, h.2.1⟩

theorem essay_new_score (id : Int) (subj : String) (dur : Int) (top : String)
    (fresh : EssayExam) (hnew : EssayExam.new id subj dur top = Except.ok fresh) :
    fresh.score = -1 := by
  by_cases hd : dur ≤ 0
  · simp only [EssayExam.new, Exam.new, hd, if_true] at hnew
    cases hnew
  · simp only [EssayExam.new, Exam.new, hd, if_false] at hnew
    cases hnew
    rfl

theorem essay_gradeExam_state (e : EssayExam) : e.gradeExam.2 = e := by
  unfold EssayExam.gradeExam
  split <;> rfl

theorem essay_assignScore_score (e : EssayExam) (s : Int) :
    (e.assignScore s).2.score = e.score ∨
      (0 ≤ (e.assignScore s).2.score ∧ (e.assignScore s).2.score ≤ 100) := by
  by_cases h : s < 0 ∨ s > 100
  · left
    simp only [EssayExam.assignScore, h, if_true]
  · right
    simp only [EssayExam.assignScore, h, if_false]
    omega

theorem essay_exec_sentinel_or_range (e : EssayExam) (c : EssayCall)
    (h : e.score = -1 ∨ (0 ≤ e.score ∧ e.score ≤ 100)) :
    (EssayCall.exec e c).score = -1 ∨
      (0 ≤ (EssayCall.exec e c).score ∧ (EssayCall.exec e c).score ≤ 100) := by
  cases c with
  | assignScore s =>
    rcases essay_assignScore_score e s with heq | hr
    · simp only [EssayCall.exec, heq]
      exact h
    · exact Or.inr hr
  | gradeExam =>
    simp only [EssayCall.exec, essay_gradeExam_state]
    exact h

theorem essay_exec_range (e : EssayExam) (c : EssayCall)
    (h : 0 ≤ e.score ∧ e.score ≤ 100) :
    0 ≤ (EssayCall.exec e c).score ∧ (EssayCall.exec e c).score ≤ 100 := by
  cases c with
  | assignScore s =>
    rcases essay_assignScore_score e s with heq | hr
    · simp only [EssayCall.exec, heq]
      exact h
    · exact hr
  | gradeExam =>
    simp only [EssayCall.exec, essay_gradeExam_state]
    exact h

theorem runEssayCalls_sentinel_or_range (cs : List EssayCall) (e : EssayExam)
    (h : e.score = -1 ∨ (0 ≤ e.score ∧ e.score ≤ 100)) :
    (runEssayCalls e cs).score = -1 ∨
      (0 ≤ (runEssayCalls e cs).score ∧ (runEssayCalls e cs).score ≤ 100) := by
  induction cs generalizing e with
  | nil => exact h
  | cons c cs ih => exact ih (EssayCall.exec e c) (essay_exec_sentinel_or_range e c h)

theorem runEssayCalls_range (cs : List EssayCall) (e : EssayExam)
    (h : 0 ≤ e.score ∧ e.score ≤ 100) :
    0 ≤ (runEssayCalls e cs).score ∧ (runEssayCalls e cs).score ≤ 100 := by
  induction cs generalizing e with
  | nil => exact h
  | cons c cs ih => exact ih (EssayCall.exec e c) (essay_exec_range e c h)

/-- C12: in every essay exam state reached from a successful construction by any sequence of
`assignScore` and `gradeExam` calls, the stored score is `-1` or lies in `[0,100]`; every
score that `gradeExam` returns lies in `[0,100]`; and once an `assignScore` has returned
normally, after any further calls the score is not `-1` and `gradeExam` returns a score. -/
theorem essay_reachable_score (id : Int) (subj : String) (dur : Int) (top : String)
    (fresh : EssayExam) (hnew : EssayExam.new id subj dur top = Except.ok fresh)
    (cs : List EssayCall) :
    ((runEssayCalls fresh cs).score = -1 ∨
      (0 ≤ (runEssayCalls fresh cs).score ∧ (runEssayCalls fresh cs).score ≤ 100)) ∧
    (∀ v, (runEssayCalls fresh cs).gradeExam.1 = Except.ok v → 0 ≤ v ∧ v ≤ 100) ∧
    (∀ s, ((runEssayCalls fresh cs).assignScore s).1 = Except.ok () →
      ∀ more : List EssayCall,
        (runEssayCalls ((runEssayCalls fresh cs).assignScore s).2 more).score ≠ -1 ∧
        ∃ v, (runEssayCalls ((runEssayCalls fresh cs).assignScore s).2 more).gradeExam.1 =
          Except.ok v) := by
  have hreach := runEssayCalls_sentinel_or_range cs fresh
    (Or.inl (essay_new_score id subj dur top fresh hnew))
  refine ⟨hreach, ?_, ?_⟩
  · intro v hv
    by_cases hs : (runEssayCalls fresh cs).score = -1
    · simp only [EssayExam.gradeExam, hs, if_true] at hv
      cases hv
    · simp only [EssayExam.gradeExam, hs, if_false] at hv
      cases hv
      rcases hreach with h | h
      · exact absurd h hs
      · exact h
  · intro s hok more
    have hs : ¬ (s < 0 ∨ s > 100) := by
      intro hbad
      simp only [EssayExam.assignScore, hbad, if_true] at hok
      cases hok
    have hgraded : 0 ≤ ((runEssayCalls fresh cs).assignScore s).2.score ∧
        ((runEssayCalls fresh cs).assignScore s).2.score ≤ 100 := by
      simp only [EssayExam.assignScore, hs, if_false]
      omega
    have hlater := runEssayCalls_range more _ hgraded
    have hne : (runEssayCalls ((runEssayCalls fresh cs).assignScore s).2 more).score ≠ -1 := by
      omega
    refine ⟨hne, (runEssayCalls ((runEssayCalls fresh cs).assignScore s).2 more).score, ?_⟩
    simp only [EssayExam.gradeExam, hne, if_false]

/-- C12, driver instance: on the driver's essay exam, after `assignScore(85)` and a failing
`assignScore(-1)`, `gradeExam` still returns a score. -/
theorem essay_reachable_score_witness :
    ∃ v, (runEssayCalls (driverEssay.assignScore 85).2
      [EssayCall.gradeExam, EssayCall.assignScore (-1)]).gradeExam.1 = Except.ok v :=
  ((essay_reachable_score 102 "English" 45 "Discuss the impact of social media." driverEssay
    driver_construction.2 []).2.2 85 (by rfl)
    [EssayCall.gradeExam, EssayCall.assignScore (-1)]).2

theorem exec_unansweredBeyondCount (s : MultipleChoiceExam) (c : Call)
    (h : UnansweredBeyondCount s) : UnansweredBeyondCount (Call.exec s c) := by
  cases c with
  | addQuestion qText opts correct =>
    by_cases hfull : 50 ≤ s.totalQuestions
    · simp only [Call.exec, addQuestion_of_full s qText opts correct hfull]
      exact h
    · obtain ⟨-, hcount, hanswers, -, -⟩ := addQuestion_of_room s qText opts correct (by omega)
      intro i hi h50
      simp only [Call.exec, hcount, hanswers] at hi ⊢
      exact h i (by omega) h50
  | submitAnswer index answer =>
    by_cases hbad : index ≥ s.totalQuestions ∨ index < 0
    · simp only [Call.exec, submitAnswer_of_invalid s index answer hbad]
      exact h
    · intro i hi h50
      simp only [Call.exec, submitAnswer_of_valid s index answer (by omega) (by omega)] at hi ⊢
      rw [List.getElem?_set_ne (by omega)]
      exact h i hi h50
  | gradeExam =>
    simp only [Call.exec, gradeExam_state]
    exact h

theorem runCalls_unansweredBeyondCount (cs : List Call) (s : MultipleChoiceExam)
    (h : UnansweredBeyondCount s) : UnansweredBeyondCount (runCalls s cs) := by
  induction cs generalizing s with
  | nil => exact h
  | cons c cs ih => exact ih (Call.exec s c) (exec_unansweredBeyondCount s c h)

theorem new_unansweredBeyondCount (rawCorrect rawStudent : Nat → Char) (id : Int)
    (subj : String) (dur : Int) (fresh : MultipleChoiceExam)
    (hnew : MultipleChoiceExam.new rawCorrect rawStudent id subj dur = Except.ok fresh) :
    UnansweredBeyondCount fresh := by
  by_cases hd : dur ≤ 0
  · rw [new_eq_error _ _ _ _ _ hd] at hnew
    cases hnew
  · rw [new_eq_ok _ _ _ _ _ (by omega)] at hnew
    cases hnew
    intro i _ h50
    simp only [List.getElem?_replicate, h50, if_true]

/-- C13: in every state reached from a successful construction by any sequence of calls,
the submitted answer at every index `i` with `question count ≤ i < 50` is the unset sentinel;
so right after an `addQuestion` that returned normally, the submitted answer of the new
question (at the old question count) is unset. -/
theorem reachable_new_question_unanswered (rawCorrect rawStudent : Nat → Char) (id : Int)
    (subj : String) (dur : Int) (fresh : MultipleChoiceExam)
    (hnew : MultipleChoiceExam.new rawCorrect rawStudent id subj dur = Except.ok fresh)
    (cs : List Call) :
    (∀ i : Nat, (runCalls fresh cs).totalQuestions ≤ (i : Int) → i < 50 →
      (runCalls fresh cs).studentAnswers[i]? = some NUL) ∧
    (∀ (qText : String) (opts : List String) (correct : Char),
      ((runCalls fresh cs).addQuestion qText opts correct).1 = Except.ok () →
      ((runCalls fresh cs).addQuestion qText opts correct).2.totalQuestions =
        (runCalls fresh cs).totalQuestions + 1 ∧
      ((runCalls fresh cs).addQuestion qText opts correct).2.studentAnswers[
        (runCalls fresh cs).totalQuestions.toNat]? = some NUL) := by
  have hun : UnansweredBeyondCount (runCalls fresh cs) :=
    runCalls_unansweredBeyondCount cs fresh
      (new_unansweredBeyondCount rawCorrect rawStudent id subj dur fresh hnew)
  have hinv : (runCalls fresh cs).Inv :=
    runCalls_inv cs fresh (new_inv rawCorrect rawStudent id subj dur fresh hnew)
  refine ⟨hun, ?_⟩
  intro qText opts correct hok
  have hlt : (runCalls fresh cs).totalQuestions < 50 := by
    by_contra hge
    rw [addQuestion_of_full _ qText opts correct (by omega)] at hok
    cases hok
  obtain ⟨-, hcount, hanswers, -, -⟩ := addQuestion_of_room _ qText opts correct hlt
  have h0 : 0 ≤ (runCalls fresh cs).totalQuestions := hinv.2.2.2.2.2.1
  refine ⟨hcount, ?_⟩
  rw [hanswers]
  exact hun _ (by omega) (by omega)

/-- C13, driver instance: after the driver's calls, a third question starts unanswered. -/
theorem reachable_new_question_unanswered_witness :
    ((runCalls driverFresh
      [Call.addQuestion "What is 2 + 2?" ["2", "3", "4", "5"] 'C',
        Call.addQuestion "What color is the sky?" ["Blue", "Red", "Green", "Yellow"] 'A',
        Call.submitAnswer 0 'C', Call.submitAnswer 1 'B']).addQuestion
      "Q" ["a", "b", "c", "d"] 'D').2.studentAnswers[(runCalls driverFresh
      [Call.addQuestion "What is 2 + 2?" ["2", "3", "4", "5"] 'C',
        Call.addQuestion "What color is the sky?" ["Blue", "Red", "Green", "Yellow"] 'A',
        Call.submitAnswer 0 'C', Call.submitAnswer 1 'B']).totalQuestions.toNat]? = some NUL :=
  ((reachable_new_question_unanswered (fun _ => 'x') (fun _ => 'y') 101 "Math" 60 driverFresh
    driver_construction.1
    [Call.addQuestion "What is 2 + 2?" ["2", "3", "4", "5"] 'C',
      Call.addQuestion "What color is the sky?" ["Blue", "Red", "Green", "Yellow"] 'A',
      Call.submitAnswer 0 'C', Call.submitAnswer 1 'B']).2 "Q" ["a", "b", "c", "d"] 'D'
    (by rfl)).2

/-! ## Frame of `addQuestion` -/

theorem foldl_copyOption_options (opts : List String) (l : List Nat) (s : MultipleChoiceExam)
    (hn : s.totalQuestions.toNat < s.options.length) :
    (l.foldl (copyOption opts) s).options =
      s.options.set s.totalQuestions.toNat
        (l.foldl (fun row i => row.set i (opts.getD i ""))
          (s.options.getD s.totalQuestions.toNat [])) := by
  induction l generalizing s with
  | nil =>
    simp only [List.foldl_nil]
    apply List.ext_getElem?
    intro j
    by_cases hj : s.totalQuestions.toNat = j
    · subst hj
      rw [List.getElem?_set_self hn, List.getD_eq_getElem _ _ hn, List.getElem?_eq_getElem hn]
    · rw [List.getElem?_set_ne hj]
  | cons i l ih =>
    have hn2 : (copyOption opts s i).totalQuestions.toNat <
        (copyOption opts s i).options.length := by
      simp only [copyOption, List.length_set]
      exact hn
    have hget : ∀ row : List String,
        (s.options.set s.totalQuestions.toNat row).getD s.totalQuestions.toNat [] = row := by
      intro row
      rw [List.getD_eq_getElem _ _ (by simpa using hn), List.getElem_set_self]
    rw [List.foldl_cons, ih (copyOption opts s i) hn2]
    simp only [copyOption, List.set_set, hget, List.foldl_cons]

theorem foldl_set_row (opts row : List String) (hrow : row.length = 4)
    (hopts : opts.length = 4) :
    (List.range 4).foldl (fun r i => r.set i (opts.getD i "")) row = opts := by
  rcases row with _ | ⟨a, _ | ⟨b, _ | ⟨c, _ | ⟨d, _ | ⟨e, r⟩⟩⟩⟩⟩ <;>
    simp only [List.length_nil, List.length_cons] at hrow <;> try omega
  rcases opts with _ | ⟨w, _ | ⟨x, _ | ⟨y, _ | ⟨z, _ | ⟨e, r⟩⟩⟩⟩⟩ <;>
    simp only [List.length_nil, List.length_cons] at hopts <;> try omega
  rfl

/-- C14: on an exam state satisfying the class invariant with `n < 50` questions,
`addQuestion(text, options, correct)` with four options returns normally; afterwards the
question count is `n + 1`, the text, the four options and the correct letter stored at index
`n` are the ones given, the texts, options and correct letters at every other index, all
submitted answers and the base-class members are unchanged. -/
theorem addQuestion_appends (s : MultipleChoiceExam) (hinv : s.Inv)
    (hn : s.totalQuestions < 50) (qText : String) (opts : List String)
    (hopts : opts.length = 4) (correct : Char) :
    (s.addQuestion qText opts correct).1 = Except.ok () ∧
    (s.addQuestion qText opts correct).2.totalQuestions = s.totalQuestions + 1 ∧
    (s.addQuestion qText opts correct).2.questions[s.totalQuestions.toNat]? = some qText ∧
    (s.addQuestion qText opts correct).2.options[s.totalQuestions.toNat]? = some opts ∧
    (s.addQuestion qText opts correct).2.correctAnswers[s.totalQuestions.toNat]? =
      some correct ∧
    (∀ j : Nat, j ≠ s.totalQuestions.toNat →
      (s.addQuestion qText opts correct).2.questions[j]? = s.questions[j]? ∧
      (s.addQuestion qText opts correct).2.options[j]? = s.options[j]? ∧
      (s.addQuestion qText opts correct).2.correctAnswers[j]? = s.correctAnswers[j]?) ∧
    (s.addQuestion qText opts correct).2.studentAnswers = s.studentAnswers ∧
    (s.addQuestion qText opts correct).2.toExam = s.toExam := by
  obtain ⟨hq, ho, hrow, hc, hs, h0, h50⟩ := hinv
  have h2 : ¬ s.totalQuestions ≥ 50 := by omega
  have hidx : s.totalQuestions.toNat < 50 := by omega
  obtain ⟨fe, fq, fc, fs, ft, -, -⟩ := foldl_copyOption opts (List.range 4)
    { s with questions := s.questions.set s.totalQuestions.toNat qText }
  have fo := foldl_copyOption_options opts (List.range 4)
    { s with questions := s.questions.set s.totalQuestions.toNat qText }
    (by simp only; omega)
  have hmem : s.options.getD s.totalQuestions.toNat [] ∈ s.options := by
    rw [List.getD_eq_getElem _ _ (by omega)]
    exact List.getElem_mem _
  have frow := foldl_set_row opts (s.options.getD s.totalQuestions.toNat []) (hrow _ hmem) hopts
  simp only at fe fq fc fs ft fo
  rw [frow] at fo
  simp only [addQuestion, h2, if_false, fe, fq, fc, fs, ft, fo]
  refine ⟨trivial, trivial, ?_, ?_, ?_, ?_, trivial, trivial⟩
  · exact List.getElem?_set_self (by omega)
  · exact List.getElem?_set_self (by omega)
  · exact List.getElem?_set_self (by omega)
  · intro j hj
    have hne : s.totalQuestions.toNat ≠ j := fun h => hj h.symm
    exact ⟨List.getElem?_set_ne hne, List.getElem?_set_ne hne, List.getElem?_set_ne hne⟩

/-- C14, driver instance: the driver's second `addQuestion` stores its question at index 1
and leaves the first question in place. -/
theorem addQuestion_appends_witness :
    ((driverFresh.addQuestion "What is 2 + 2?" ["2", "3", "4", "5"] 'C').2.addQuestion
      "What color is the sky?" ["Blue", "Red", "Green", "Yellow"] 'A').2.options[
        (driverFresh.addQuestion "What is 2 + 2?" ["2", "3", "4", "5"]
          'C').2.totalQuestions.toNat]? = some ["Blue", "Red", "Green", "Yellow"] :=
  (addQuestion_appends (driverFresh.addQuestion "What is 2 + 2?" ["2", "3", "4", "5"] 'C').2
    (by decide) (by decide) "What color is the sky?" ["Blue", "Red", "Green", "Yellow"]
    (by decide) 'A').2.2.2.1

/-! ## Negative scores, the driver, failing calls -/

/-- C15: there is a reachable exam state on which `gradeExam` returns a negative score: the
driver's exam constructor followed by one `addQuestion` with correct letter `'A'` and
`submitAnswer(0, 'B')` gives one question, answered wrongly, and the score `-1`. -/
theorem gradeExam_negative_reachable :
    ∃ (fresh : MultipleChoiceExam) (cs : List Call) (score : Int),
      MultipleChoiceExam.new (fun _ => 'x') (fun _ => 'y') 101 "Math" 60 = Except.ok fresh ∧
      (runCalls fresh cs).totalQuestions = 1 ∧
      (runCalls fresh cs).correctAnswers[0]? = some 'A' ∧
      (runCalls fresh cs).studentAnswers[0]? = some 'B' ∧
      (runCalls fresh cs).gradeExam.1 = Except.ok score ∧
      score < 0 :=
  ⟨driverFresh,
    [Call.addQuestion "What color is the sky?" ["Blue", "Red", "Green", "Yellow"] 'A',
      Call.submitAnswer 0 'B'],
    -1, driver_construction.1, by decide, by decide, by decide, by rfl, by decide⟩

/-- C16: whatever the `char` arrays hold before construction, the `try` block of the driver
writes the multiple-choice score `0` and the essay score `85`, and is left by an
`InvalidExamDurationException` thrown by its last statement (source line 216), no earlier
statement having thrown; `main` runs the first `catch` clause, the one for
`InvalidExamDurationException`, neither the one for `GradingErrorException` nor the one for
`std::exception`, and returns `0`. -/
theorem main_run (rawCorrect rawStudent : Nat → Char) :
    tryBlock rawCorrect rawStudent =
      ([("MC Exam Score", 0), ("Essay Exam Score", 85)],
        Except.error (216, Exn.InvalidExamDurationException)) ∧
    main rawCorrect rawStudent =
      ([("MC Exam Score", 0), ("Essay Exam Score", 85)],
        some Handler.InvalidExamDurationException, 0) ∧
    (main rawCorrect rawStudent).2.1 ≠ some Handler.GradingErrorException ∧
    (main rawCorrect rawStudent).2.1 ≠ some Handler.std_exception := by
  have htry : tryBlock rawCorrect rawStudent =
      ([("MC Exam Score", 0), ("Essay Exam Score", 85)],
        Except.error (216, Exn.InvalidExamDurationException)) := by
    simp only [tryBlock, new_eq_ok rawCorrect rawStudent 101 "Math" 60 (by decide)]
    rfl
  have hmain : main rawCorrect rawStudent =
      ([("MC Exam Score", 0), ("Essay Exam Score", 85)],
        some Handler.InvalidExamDurationException, 0) := by
    simp only [main, htry]
    rfl
  refine ⟨htry, hmain, ?_, ?_⟩
  · rw [hmain]
    decide
  · rw [hmain]
    decide

/-- C17: a call that throws leaves the object as it was: for `addQuestion`, `submitAnswer`
and `gradeExam` of `MultipleChoiceExam` and for `assignScore` and `gradeExam` of `EssayExam`,
whenever the outcome is an exception the state after the call equals the state before it. -/
theorem failing_call_keeps_state (s : MultipleChoiceExam) (e : EssayExam) (qText : String)
    (opts : List String) (correct : Char) (index : Int) (answer : Char) (sc : Int)
    (x : Exn) :
    ((s.addQuestion qText opts correct).1 = Except.error x →
      (s.addQuestion qText opts correct).2 = s) ∧
    ((s.submitAnswer index answer).1 = Except.error x →
      (s.submitAnswer index answer).2 = s) ∧
    (s.gradeExam.1 = Except.error x → s.gradeExam.2 = s) ∧
    ((e.assignScore sc).1 = Except.error x → (e.assignScore sc).2 = e) ∧
    (e.gradeExam.1 = Except.error x → e.gradeExam.2 = e) := by
  refine ⟨?_, ?_, fun _ => gradeExam_state s, ?_, fun _ => essay_gradeExam_state e⟩
  · intro h
    by_cases hfull : 50 ≤ s.totalQuestions
    · rw [addQuestion_of_full s qText opts correct hfull]
    · rw [(addQuestion_of_room s qText opts correct (by omega)).1] at h
      cases h
  · intro h
    by_cases hbad : index ≥ s.totalQuestions ∨ index < 0
    · rw [submitAnswer_of_invalid s index answer hbad]
    · rw [submitAnswer_of_valid s index answer (by omega) (by omega)] at h
      cases h
  · intro h
    by_cases hbad : sc < 0 ∨ sc > 100
    · simp only [EssayExam.assignScore, hbad, if_true]
    · simp only [EssayExam.assignScore, hbad, if_false] at h
      cases h

/-- C17, instances: the 51st `addQuestion`, `submitAnswer(2, 'D')` on the driver's exam with
two questions, `gradeExam` on the fresh exam, `assignScore(101)` and `gradeExam` on the fresh
essay exam all throw and leave the state as it was. -/
theorem failing_call_keeps_state_witness :
    (fullExam.addQuestion "Q" ["a", "b", "c", "d"] 'D').2 = fullExam ∧
    (driverExam.submitAnswer 2 'D').2 = driverExam ∧
    driverFresh.gradeExam.2 = driverFresh ∧
    (driverEssay.assignScore 101).2 = driverEssay ∧
    driverEssay.gradeExam.2 = driverEssay :=
  ⟨(failing_call_keeps_state fullExam driverEssay "Q" ["a", "b", "c", "d"] 'D' 2 'D' 101
      Exn.overflow_error).1
      (by rw [addQuestion_of_full fullExam "Q" ["a", "b", "c", "d"] 'D' (by decide)]),
    (failing_call_keeps_state driverExam driverEssay "Q" ["a", "b", "c", "d"] 'D' 2 'D' 101
      Exn.out_of_range).2.1 (by rfl),
    (failing_call_keeps_state driverFresh driverEssay "Q" ["a", "b", "c", "d"] 'D' 2 'D' 101
      Exn.GradingErrorException).2.2.1 (by rfl),
    (failing_call_keeps_state driverFresh driverEssay "Q" ["a", "b", "c", "d"] 'D' 2 'D' 101
      Exn.GradingErrorException).2.2.2.1 (by rfl),
    (failing_call_keeps_state driverFresh driverEssay "Q" ["a", "b", "c", "d"] 'D' 2 'D' 101
      Exn.runtime_error).2.2.2.2 (by rfl)⟩

/-! ## Range of the score and the effect of one answer -/

/-- The counting loop of `foldl_plus_minus` started at `0` stays within `-k .. k`, reaches
`k` exactly when `p` holds throughout, and `-k` exactly when `p` fails and `q` holds
throughout. -/
theorem foldl_plus_minus_range (p q : Nat → Prop) [DecidablePred p] [DecidablePred q]
    (k : Nat) :
    -(k : Int) ≤ (List.range k).foldl
        (fun score i => if p i then score + 1 else if q i then score - 1 else score) 0 ∧
    (List.range k).foldl
        (fun score i => if p i then score + 1 else if q i then score - 1 else score) 0 ≤
      (k : Int) ∧
    ((List.range k).foldl
        (fun score i => if p i then score + 1 else if q i then score - 1 else score) 0 =
      (k : Int) ↔ ∀ i < k, p i) ∧
    ((List.range k).foldl
        (fun score i => if p i then score + 1 else if q i then score - 1 else score) 0 =
      -(k : Int) ↔ ∀ i < k, ¬ p i ∧ q i) := by
  induction k with
  | zero => simp
  | succ k ih =>
    obtain ⟨hlo, hhi, htop, hbot⟩ := ih
    rw [List.range_succ, List.foldl_append]
    simp only [List.foldl_cons, List.foldl_nil, Nat.forall_lt_succ, Nat.cast_add, Nat.cast_one]
    generalize (List.range k).foldl
      (fun score i => if p i then score + 1 else if q i then score - 1 else score) 0 = f
      at hlo hhi htop hbot
    by_cases h1 : p k
    · simp only [h1, if_true, not_true_eq_false, false_and, and_false, and_true]
      refine ⟨by omega, by omega, ?_, ?_⟩
      · rw [← htop]
        constructor <;> intro h <;> omega
      · constructor
        · intro h
          omega
        · exact False.elim
    · by_cases h2 : q k
      · simp only [h1, h2, if_true, if_false, not_false_eq_true, and_self, and_true, and_false]
        refine ⟨by omega, by omega, ?_, ?_⟩
        · constructor
          · intro h
            omega
          · exact False.elim
        · rw [← hbot]
          constructor <;> intro h <;> omega
      · simp only [h1, h2, if_false, and_false]
        refine ⟨by omega, by omega, ?_, ?_⟩
        · constructor
          · intro h
            omega
          · exact False.elim
        · constructor
          · intro h
            omega
          · exact False.elim

/-- C18: for every exam state with `n` questions, `1 ≤ n ≤ 50`, `gradeExam` returns a score
with `-n ≤ score ≤ n`, hence `-50 ≤ score ≤ 50`; the score is `n` exactly when every
submitted answer below `n` equals its correct answer, and `-n` exactly when every submitted
answer below `n` is set (not the sentinel) and differs from its correct answer. -/
theorem gradeExam_score_range (s : MultipleChoiceExam) (h1 : 1 ≤ s.totalQuestions)
    (h50 : s.totalQuestions ≤ 50) :
    ∃ score, s.gradeExam.1 = Except.ok score ∧
      -s.totalQuestions ≤ score ∧ score ≤ s.totalQuestions ∧
      -50 ≤ score ∧ score ≤ 50 ∧
      (score = s.totalQuestions ↔
        ∀ i : Nat, (i : Int) < s.totalQuestions →
          s.studentAnswers.getD i NUL = s.correctAnswers.getD i NUL) ∧
      (score = -s.totalQuestions ↔
        ∀ i : Nat, (i : Int) < s.totalQuestions →
          s.studentAnswers.getD i NUL ≠ NUL ∧
          s.studentAnswers.getD i NUL ≠ s.correctAnswers.getD i NUL) := by
  have hpos : ¬ s.totalQuestions ≤ 0 := by omega
  have hcast : ((s.totalQuestions.toNat : Nat) : Int) = s.totalQuestions :=
    Int.toNat_of_nonneg (by omega)
  obtain ⟨hlo, hhi, htop, hbot⟩ :=
    foldl_plus_minus_range (fun i => s.studentAnswers.getD i NUL = s.correctAnswers.getD i NUL)
      (fun i => s.studentAnswers.getD i NUL ≠ NUL) s.totalQuestions.toNat
  rw [hcast] at hlo hhi htop hbot
  refine ⟨(List.range s.totalQuestions.toNat).foldl (gradeStep s) 0, ?_, hlo, hhi,
    by exact le_trans (by omega) hlo, le_trans hhi h50, ?_, ?_⟩
  · simp only [gradeExam, hpos, if_false]
  · refine Iff.trans htop ?_
    constructor
    · intro h i hi
      exact h i (by omega)
    · intro h i hi
      exact h i (by omega)
  · refine Iff.trans hbot ?_
    constructor
    · intro h i hi
      exact ⟨(h i (by omega)).2, (h i (by omega)).1⟩
    · intro h i hi
      exact ⟨(h i (by omega)).2, (h i (by omega)).1⟩

/-- C18, driver instance: the driver's exam has two questions and its score lies in
`-2 .. 2`. -/
theorem gradeExam_score_range_witness :
    ∃ score, driverExam.gradeExam.1 = Except.ok score ∧
      -driverExam.totalQuestions ≤ score ∧ score ≤ driverExam.totalQuestions :=
  (gradeExam_score_range driverExam (by decide) (by decide)).elim
    fun score h => ⟨score, h.1, h.2.1, h.2.2.1⟩

theorem gradeStep_eq_add (s : MultipleChoiceExam) (score : Int) (i : Nat) :
    gradeStep s score i = score + contribution s i := by
  unfold contribution gradeStep
  split
  · omega
  · split <;> omega

theorem contribution_range (s : MultipleChoiceExam) (i : Nat) :
    -1 ≤ contribution s i ∧ contribution s i ≤ 1 := by
  unfold contribution gradeStep
  split
  · omega
  · split <;> omega

theorem foldl_gradeStep_eq_sum (s : MultipleChoiceExam) (k : Nat) (acc : Int) :
    (List.range k).foldl (gradeStep s) acc =
      acc + ∑ i in Finset.range k, contribution s i := by
  induction k with
  | zero => simp
  | succ k ih =>
    rw [List.range_succ, List.foldl_append, ih, Finset.sum_range_succ]
    simp only [List.foldl_cons, List.foldl_nil, gradeStep_eq_add]
    omega

theorem contribution_set_ne (s : MultipleChoiceExam) (idx : Nat) (a : Char) (j : Nat)
    (hj : j ≠ idx) :
    contribution { s with studentAnswers := s.studentAnswers.set idx a } j =
      contribution s j := by
  have hne : idx ≠ j := fun h => hj h.symm
  simp only [contribution, gradeStep, List.getD_eq_getElem?_getD, List.getElem?_set_ne hne]

/-- C19: for every exam state and index `i` with `0 ≤ i < n`, `submitAnswer(i, a)` returns
normally and changes only the submitted answer at index `i`: the question count, the
base-class members, the question texts, the options, the correct answers and the submitted
answer at every index `j ≠ i` are unchanged; `gradeExam` returns a score before and after the
call, and the two scores differ by at most 2 in absolute value. -/
theorem submitAnswer_frame (s : MultipleChoiceExam) (i : Int) (a : Char) (h0 : 0 ≤ i)
    (hn : i < s.totalQuestions) :
    (s.submitAnswer i a).1 = Except.ok () ∧
    (s.submitAnswer i a).2.totalQuestions = s.totalQuestions ∧
    (s.submitAnswer i a).2.toExam = s.toExam ∧
    (s.submitAnswer i a).2.questions = s.questions ∧
    (s.submitAnswer i a).2.options = s.options ∧
    (s.submitAnswer i a).2.correctAnswers = s.correctAnswers ∧
    (∀ j : Nat, j ≠ i.toNat →
      (s.submitAnswer i a).2.studentAnswers[j]? = s.studentAnswers[j]?) ∧
    ∃ before after,
      s.gradeExam.1 = Except.ok before ∧
      (s.submitAnswer i a).2.gradeExam.1 = Except.ok after ∧
      |after - before| ≤ 2 := by
  have hpos : ¬ s.totalQuestions ≤ 0 := by omega
  rw [submitAnswer_of_valid s i a h0 hn]
  refine ⟨rfl, rfl, rfl, rfl, rfl, rfl, ?_, ?_⟩
  · intro j hj
    exact List.getElem?_set_ne (fun h => hj h.symm)
  · refine ⟨(List.range s.totalQuestions.toNat).foldl (gradeStep s) 0,
      (List.range s.totalQuestions.toNat).foldl
        (gradeStep { s with studentAnswers := s.studentAnswers.set i.toNat a }) 0, ?_, ?_, ?_⟩
    · simp only [gradeExam, hpos, if_false]
    · simp only [gradeExam, hpos, if_false]
    · rw [foldl_gradeStep_eq_sum, foldl_gradeStep_eq_sum, zero_add, zero_add,
        ← Finset.sum_sub_distrib]
      have hsingle : ∑ j in Finset.range s.totalQuestions.toNat,
          (contribution { s with studentAnswers := s.studentAnswers.set i.toNat a } j -
            contribution s j) =
          contribution { s with studentAnswers := s.studentAnswers.set i.toNat a } i.toNat -
            contribution s i.toNat := by
        apply Finset.sum_eq_single i.toNat
        · intro j _ hj
          rw [contribution_set_ne s i.toNat a j hj, sub_self]
        · intro hnot
          exact absurd (Finset.mem_range.mpr (by omega)) hnot
      rw [hsingle, abs_le]
      have hb := contribution_range s i.toNat
      have ha := contribution_range { s with studentAnswers := s.studentAnswers.set i.toNat a }
        i.toNat
      constructor <;> omega

/-- C19, driver instance: on the driver's exam, changing the answer to question 1 from `'B'`
(wrong) to `'A'` (right) moves the score from `0` to `2`. -/
theorem submitAnswer_frame_witness :
    (∃ before after,
      driverExam.gradeExam.1 = Except.ok before ∧
      (driverExam.submitAnswer 1 'A').2.gradeExam.1 = Except.ok after ∧
      |after - before| ≤ 2) ∧
    driverExam.gradeExam.1 = Except.ok 0 ∧
    (driverExam.submitAnswer 1 'A').2.gradeExam.1 = Except.ok 2 :=
  ⟨(submitAnswer_frame driverExam 1 'A' (by decide) (by decide)).2.2.2.2.2.2.2,
    by rfl, by rfl⟩

end Q2

namespace Q1

theorem wrapInt32_of_fits (x : Int) (hlo : -2147483648 ≤ x) (hhi : x ≤ 2147483647) :
    wrapInt32 x = x := by
  unfold wrapInt32
  omega

/-- C10 as stated fails: `days = 1073742` is a non-negative `int`, and the result of
`Car::calculateRentalCost` on it is `-2147483296`, not `1073742 * 2000 = 2147484000`. -/
theorem car_cost_overflow :
    (0 : Int) ≤ 1073742 ∧ (1073742 : Int) ≤ 2147483647 ∧
    myCar.calculateRentalCost 1073742 = -2147483296 ∧
    myCar.calculateRentalCost 1073742 ≠ 1073742 * 2000 := by
  decide

/-- C10 (amended): for all non-negative `days` whose product with the daily rate is at most
`2^31 - 1`, `Car::calculateRentalCost(days)` is `days * 2000` whatever the door count,
`Truck::calculateRentalCost(days)` is `days * 2500` whatever the cargo capacity, and
`SUV::calculateRentalCost(days)` is `days * 3000` with four-wheel drive and `days * 2000`
without. -/
theorem calculateRentalCost_of_fits (c : Car) (v : SUV) (t : Truck) (days : Int)
    (h0 : 0 ≤ days) :
    (days * 2000 ≤ 2147483647 → c.calculateRentalCost days = days * 2000) ∧
    (days * 2500 ≤ 2147483647 → t.calculateRentalCost days = days * 2500) ∧
    (days * (if v.fourWheelDrive then 3000 else 2000) ≤ 2147483647 →
      v.calculateRentalCost days = days * (if v.fourWheelDrive then 3000 else 2000)) := by
  refine ⟨fun h => ?_, fun h => ?_, fun h => ?_⟩
  · exact wrapInt32_of_fits _ (by omega) h
  · exact wrapInt32_of_fits _ (by omega) h
  · refine wrapInt32_of_fits _ ?_ h
    split <;> omega

/-- C10, driver instance: for 3 days the car costs 6000, the four-wheel-drive SUV 9000 and
the truck 7500. -/
theorem calculateRentalCost_of_fits_witness :
    myCar.calculateRentalCost 3 = 6000 ∧
    myTruck.calculateRentalCost 3 = 7500 ∧
    mySUV.calculateRentalCost 3 = 9000 :=
  have h := calculateRentalCost_of_fits myCar mySUV myTruck 3 (by decide)
  ⟨h.1 (by decide), h.2.1 (by decide), h.2.2 (by decide)⟩

/-- C20: with the product taken in 32-bit signed arithmetic, for every `days` with
`0 ≤ days ≤ 715827` the three products `days * 2000`, `days * 2500` and `days * 3000` are at
most `2^31 - 1` and the results of `Car`, `Truck` and `SUV` (`days * 3000` with four-wheel
drive, `days * 2000` without) are these exact products; the bound is tight for the
four-wheel-drive `SUV`: `715828 * 3000` exceeds `2^31 - 1` and its result for `715828` is not
the product. -/
theorem calculateRentalCost_exact_upto (c : Car) (v : SUV) (t : Truck) (days : Int)
    (h0 : 0 ≤ days) (hmax : days ≤ 715827) :
    (days * 2000 ≤ 2147483647 ∧ days * 2500 ≤ 2147483647 ∧ days * 3000 ≤ 2147483647) ∧
    c.calculateRentalCost days = days * 2000 ∧
    t.calculateRentalCost days = days * 2500 ∧
    (v.fourWheelDrive = true → v.calculateRentalCost days = days * 3000) ∧
    (v.fourWheelDrive = false → v.calculateRentalCost days = days * 2000) ∧
    (2147483647 : Int) < 715828 * 3000 ∧
    (v.fourWheelDrive = true → v.calculateRentalCost 715828 ≠ 715828 * 3000) := by
  refine ⟨⟨by omega, by omega, by omega⟩, ?_, ?_, ?_, ?_, by decide, ?_⟩
  · exact wrapInt32_of_fits _ (by omega) (by omega)
  · exact wrapInt32_of_fits _ (by omega) (by omega)
  · intro h4
    simp only [SUV.calculateRentalCost, h4, if_true]
    exact wrapInt32_of_fits _ (by omega) (by omega)
  · intro h4
    simp only [SUV.calculateRentalCost, h4, Bool.false_eq_true, if_false]
    exact wrapInt32_of_fits _ (by omega) (by omega)
  · intro h4
    simp only [SUV.calculateRentalCost, h4, if_true]
    decide

/-- C20, instance: at the bound `days = 715827` the driver's four-wheel-drive SUV costs
`2147481000`, and one day more no longer gives the product. -/
theorem calculateRentalCost_exact_upto_witness :
    mySUV.calculateRentalCost 715827 = 2147481000 ∧
    mySUV.calculateRentalCost 715828 ≠ 715828 * 3000 :=
  have h := calculateRentalCost_exact_upto myCar mySUV myTruck 715827 (by decide) (by decide)
  ⟨h.2.2.2.1 rfl, h.2.2.2.2.2.2 rfl⟩

end Q1
